import Mathlib

/-!
Verification of the session-scoped background prefetch cache
(src/services/preload_manager.py, class PreloadManager).

The manager's mutable state is embedded shallowly:
python dicts become association lists (unique keys, insertion order kept,
update-in-place, append on new key), the asyncio queue becomes a FIFO list,
and the single background consumer task becomes an optional in-flight
request.  The asyncio execution model is single threaded: code between
awaits runs atomically, so the worker cycle is split exactly at its one
await point (the AnalysisPipeline call) into a begin step
(dequeue + set status processing, lines 52-78) and a finish step
(lines 83-97, either the success branch or the except branch).
The analysis pipeline itself is opaque: results live in an arbitrary
type and the pipeline outcome (success value or raised exception) is a
parameter of the finish step.
-/

namespace AudioComic

/-- Lifecycle status strings stored in PreloadManager.preload_status:
"processing", "completed", "failed"; "not_started" is the default that
get_preload_status reports for absent entries. -/
inductive PStatus where
| processing
| completed
| failed
| not_started
deriving DecidableEq

/-- A prefetch request tuple (session_id, page_num, page_image_path,
language_code) as placed on preload_queue by preload_page. -/
structure PrefetchRequest where
sid : String
page : Int
ref : String
lang : String
deriving DecidableEq

/-- Inner python dict page_num -> value (page numbers are python ints). -/
abbrev PageMap (α : Type) := List (Int × α)

/-- Outer python dict session_id -> value. -/
abbrev SessMap (α : Type) := List (String × α)

/-- Python dict read d[k] / "k in d": first (unique) matching key. -/
def lookupPage {α : Type} : PageMap α → Int → Option α
| [], _ => none
| e :: rest, k => if e.1 = k then some e.2 else lookupPage rest k

/-- Python dict write d[k] = v: replace in place if present, else append. -/
def setPage {α : Type} : PageMap α → Int → α → PageMap α
| [], k, v => [(k, v)]
| e :: rest, k, v => if e.1 = k then (k, v) :: rest else e :: setPage rest k v

/-- Python dict read on the outer session map. -/
def lookupSess {α : Type} : SessMap α → String → Option α
| [], _ => none
| e :: rest, k => if e.1 = k then some e.2 else lookupSess rest k

/-- Python dict write on the outer session map. -/
def setSess {α : Type} : SessMap α → String → α → SessMap α
| [], k, v => [(k, v)]
| e :: rest, k, v => if e.1 = k then (k, v) :: rest else e :: setSess rest k v

/-- Python "del d[k]" on the outer session map: removes the binding of k
(keys are unique in a python dict, so dropping every pair keyed k removes
exactly that one binding). -/
def delSess {α : Type} (m : SessMap α) (k : String) : SessMap α :=
m.filter (fun e => !(e.1 = k : Bool))

/-- The two-level write pattern of lines 76-78 and 95-97:
if session_id not in d: d[session_id] = \x7b\x7d ; then d[session_id][page] = v. -/
def setEntry {α : Type} (m : SessMap (PageMap α)) (sid : String) (p : Int) (v : α) :
    SessMap (PageMap α) :=
match lookupSess m sid with
| none => setSess m sid (setPage [] p v)
| some pm => setSess m sid (setPage pm p v)

/-- State of a PreloadManager instance.  maxWorkers and preloadAhead are
the python int constructor arguments; preloadResults and preloadStatus
are the two session-scoped dicts; queue is the asyncio FIFO queue;
running is the background-processing flag; inFlight is the request the
single background consumer task is currently awaiting the pipeline for
(none when it sits at the queue.get await). -/
structure PMState (α : Type) where
maxWorkers : Int
preloadAhead : Int
preloadResults : SessMap (PageMap α)
preloadStatus : SessMap (PageMap PStatus)
queue : List PrefetchRequest
running : Bool
inFlight : Option PrefetchRequest
deriving DecidableEq

/-- PreloadManager.__init__: both dicts empty, nothing queued, background
processing not yet started. -/
def initState (α : Type) (maxWorkers preloadAhead : Int) : PMState α :=
⟨maxWorkers, preloadAhead, [], [], [], false, none⟩

/-- is_page_preloaded (lines 152-155): session_id in preload_results and
page_num in preload_results[session_id]. -/
def isPagePreloaded {α : Type} (s : PMState α) (sid : String) (p : Int) : Bool :=
match lookupSess s.preloadResults sid with
| none => false
| some pm => (lookupPage pm p).isSome

/-- get_preloaded_page (lines 157-161): the stored result when
is_page_preloaded, else None. -/
def getPreloadedPage {α : Type} (s : PMState α) (sid : String) (p : Int) : Option α :=
if isPagePreloaded s sid p then
  match lookupSess s.preloadResults sid with
  | none => none
  | some pm => lookupPage pm p
else none

/-- get_preload_status (lines 163-167): the stored status string, with
"not_started" for any absent session or page entry. -/
def getPreloadStatus {α : Type} (s : PMState α) (sid : String) (p : Int) : PStatus :=
match lookupSess s.preloadStatus sid with
| none => PStatus.not_started
| some pm =>
  match lookupPage pm p with
  | none => PStatus.not_started
  | some st => st

/-- preload_page (lines 106-124): return unchanged if is_page_preloaded,
otherwise put the request tuple on the queue (an unbounded asyncio queue,
so the put never suspends). -/
def preloadPage {α : Type} (s : PMState α) (sid : String) (p : Int) (ref lang : String) :
    PMState α :=
if isPagePreloaded s sid p then s
else { s with queue := s.queue ++ [⟨sid, p, ref, lang⟩] }

/-- Python list subscript pages[i]: nonnegative index, or negative index
counted from the end; none models an IndexError. -/
def pyGet (l : List String) (i : Int) : Option String :=
if 0 ≤ i then l.get? i.toNat
else if 0 ≤ i + l.length then l.get? (i + l.length).toNat
else none

/-- One iteration of the planning loop of preload_upcoming_pages (lines
141-144): next_page = current_page + i with i = j + 1; append
(next_page, pages[next_page]) when next_page < total_pages; the subscript
pages[next_page] can raise IndexError (error outcome). -/
def planStep (currentPage : Int) (pages : List String) (acc : List (Int × String))
    (j : Nat) : Except String (List (Int × String)) :=
let nextPage := currentPage + ((j : Int) + 1)
if nextPage < (pages.length : Int) then
  match pyGet pages nextPage with
  | some ref => Except.ok (acc ++ [(nextPage, ref)])
  | none => Except.error "IndexError"
else Except.ok acc

/-- The planning loop of preload_upcoming_pages (lines 137-144): for i in
range(1, preload_ahead + 1) run planStep; an IndexError aborts the plan
before anything is enqueued. -/
def computePagesToPreload (currentPage preloadAhead : Int) (pages : List String) :
    Except String (List (Int × String)) :=
(List.range preloadAhead.toNat).foldlM (planStep currentPage pages) []

/-- preload_upcoming_pages (lines 126-150): compute the plan, then call
preload_page on each planned (page, ref) pair in order. -/
def preloadUpcomingPages {α : Type} (s : PMState α) (sid : String) (currentPage : Int)
    (pages : List String) (lang : String) : Except String (PMState α) :=
match computePagesToPreload currentPage s.preloadAhead pages with
| Except.error e => Except.error e
| Except.ok lst =>
  Except.ok (lst.foldl (fun st pr => preloadPage st sid pr.1 pr.2 lang) s)

/-- The atomic prefix of one consumer cycle (lines 52-78): dequeue the
front request and set its status to "processing" (creating the session
dict if absent); the task then suspends at the pipeline await. -/
def beginProcessing {α : Type} (s : PMState α) (r : PrefetchRequest)
    (rest : List PrefetchRequest) : PMState α :=
{ s with queue := rest, inFlight := some r,
         preloadStatus := setEntry s.preloadStatus r.sid r.page PStatus.processing }

/-- The success continuation after the pipeline await (lines 83-97): store
the result (creating the session dict if absent, lines 84-86); then line
89 writes status "completed" without re-creating the session status dict,
so if that dict was removed mid-flight the write raises KeyError, which
the except handler turns into status "failed" (lines 93-97). -/
def finishSuccess {α : Type} (s : PMState α) (r : PrefetchRequest) (res : α) : PMState α :=
match lookupSess s.preloadStatus r.sid with
| some _ =>
  { s with preloadResults := setEntry s.preloadResults r.sid r.page res,
           preloadStatus := setEntry s.preloadStatus r.sid r.page PStatus.completed,
           inFlight := none }
| none =>
  { s with preloadResults := setEntry s.preloadResults r.sid r.page res,
           preloadStatus := setEntry s.preloadStatus r.sid r.page PStatus.failed,
           inFlight := none }

/-- The failure continuation after the pipeline await (lines 93-97): the
except handler records status "failed" (re-creating the session dict if
needed), stores no result, and returns normally so the consumer loop
continues with the next request. -/
def finishFailure {α : Type} (s : PMState α) (r : PrefetchRequest) : PMState α :=
{ s with preloadStatus := setEntry s.preloadStatus r.sid r.page PStatus.failed,
         inFlight := none }

/-- clear_session_data (lines 169-175): delete the session's entry from
both dicts. -/
def clearSessionData {α : Type} (s : PMState α) (sid : String) : PMState α :=
{ s with preloadResults := delSess s.preloadResults sid,
         preloadStatus := delSess s.preloadStatus sid }

/-- The stats dict returned by get_preload_stats. -/
structure PreloadStats where
totalPages : Nat
completed : Nat
processing : Nat
failed : Nat
notStarted : Nat
deriving DecidableEq

/-- Count of entries of the session's status dict holding a given value. -/
def countStatus (pm : PageMap PStatus) (st : PStatus) : Nat :=
pm.countP (fun e => e.2 = st)

/-- get_preload_stats (lines 177-196): all-zero stats for an unknown
session, else the size of the status dict and the count of each value. -/
def getPreloadStats {α : Type} (s : PMState α) (sid : String) : PreloadStats :=
match lookupSess s.preloadStatus sid with
| none => ⟨0, 0, 0, 0, 0⟩
| some pm =>
  ⟨pm.length, countStatus pm PStatus.completed, countStatus pm PStatus.processing,
   countStatus pm PStatus.failed, countStatus pm PStatus.not_started⟩

/-- start_background_processing (lines 32-37): if not running, set running
and create one background consumer task with asyncio.create_task.  The
second component is the number of consumer tasks the call creates. -/
def startBackgroundProcessing {α : Type} (s : PMState α) : PMState α × Nat :=
if s.running then (s, 0) else ({ s with running := true }, 1)

/-- stop_background_processing (lines 39-45): clear running and cancel the
background task; a cancellation raised at the pipeline await is a
BaseException not caught by the except Exception handler, so an in-flight
item is simply dropped with its status left as is. -/
def stopBackgroundProcessing {α : Type} (s : PMState α) : PMState α :=
if s.running then { s with running := false, inFlight := none } else s

/-- One atomic step of the manager between awaits of the single-threaded
event loop: a facade call (preload_page, preload_upcoming_pages when it
does not raise, clear_session_data, start, stop) or one of the two halves
of the consumer cycle. -/
inductive Step (α : Type) : PMState α → PMState α → Prop where
| preload (s : PMState α) (sid : String) (p : Int) (ref lang : String) :
    Step α s (preloadPage s sid p ref lang)
| preloadWindow (s s' : PMState α) (sid : String) (cur : Int) (pages : List String)
    (lang : String) (h : preloadUpcomingPages s sid cur pages lang = Except.ok s') :
    Step α s s'
| workerBegin (s : PMState α) (r : PrefetchRequest) (rest : List PrefetchRequest)
    (hrun : s.running = true) (hin : s.inFlight = none) (hq : s.queue = r :: rest) :
    Step α s (beginProcessing s r rest)
| workerSuccess (s : PMState α) (r : PrefetchRequest) (res : α)
    (h : s.inFlight = some r) : Step α s (finishSuccess s r res)
| workerFailure (s : PMState α) (r : PrefetchRequest)
    (h : s.inFlight = some r) : Step α s (finishFailure s r)
| clear (s : PMState α) (sid : String) : Step α s (clearSessionData s sid)
| start (s : PMState α) : Step α s (startBackgroundProcessing s).1
| stop (s : PMState α) : Step α s (stopBackgroundProcessing s)

/-- A state reachable from a freshly constructed manager. -/
def Reachable (α : Type) (s : PMState α) : Prop :=
∃ mw pa : Int, Relation.ReflTransGen (Step α) (initState α mw pa) s

/-- Modelled from the spec (section 4.2): the candidate indices of the
WindowPlanner, current_index + i for i in 1..depth kept when below
total; used to state how the code's plan relates to the spec's. -/
def windowCandidates (current depth : Int) (total : Nat) : List Int :=
((List.range depth.toNat).map (fun (j : Nat) => current + ((j : Int) + 1))).filter
  (fun n => n < (total : Int))

/-- Invariant: no stored status entry ever holds "not_started". -/
def NoStoredNotStarted {α : Type} (s : PMState α) : Prop :=
∀ e ∈ s.preloadStatus, ∀ q ∈ e.2, q.2 ≠ PStatus.not_started

/-- Invariant: a "completed" status is always backed by a stored result. -/
def CompletedHasResult {α : Type} (s : PMState α) : Prop :=
∀ sid p, getPreloadStatus s sid p = PStatus.completed → isPagePreloaded s sid p = true

/-- Two-level read of the nested session dicts, the common shape of
get_preload_status and is_page_preloaded. -/
def entryOf {α : Type} (m : SessMap (PageMap α)) (sid : String) (p : Int) : Option α :=
match lookupSess m sid with
| none => none
| some pm => lookupPage pm p

/-- A concrete request used in the executable scenarios below. -/
def exReq0 : PrefetchRequest := ⟨"s", 0, "p0.png", "en-US"⟩

/-- Fresh manager, max_workers = 2, preload_ahead = 2. -/
def exS0 : PMState Nat := initState Nat 2 2

/-- After start_background_processing. -/
def exS1 : PMState Nat := (startBackgroundProcessing exS0).1

/-- After preload_page("s", 0): one queued request. -/
def exS2 : PMState Nat := preloadPage exS1 "s" 0 "p0.png" "en-US"

/-- After a second preload_page("s", 0) issued before the worker ran: the
result store is still empty, so a duplicate request is queued. -/
def exS2b : PMState Nat := preloadPage exS2 "s" 0 "p0.png" "en-US"

/-- Worker dequeues the first request: status "processing". -/
def exS3 : PMState Nat := beginProcessing exS2 exReq0 []

/-- Worker dequeues the first of the two duplicate requests. -/
def exS3b : PMState Nat := beginProcessing exS2b exReq0 [exReq0]

/-- Pipeline succeeds: result 42 stored, status "completed", the duplicate
request still queued. -/
def exS4 : PMState Nat := finishSuccess exS3b exReq0 42

/-- Worker dequeues the duplicate request: status back to "processing"
while the stored result remains. -/
def exS5 : PMState Nat := beginProcessing exS4 exReq0 []

/-- clear_session_data while the first request is in flight. -/
def exC4 : PMState Nat := clearSessionData exS3 "s"

/-- The in-flight item then fails: its status entry is re-created directly
at "failed", never having been "processing" since the clear. -/
def exC5 : PMState Nat := finishFailure exC4 exReq0

/-- Ten page image paths. -/
def pages10 : List String := ["g0", "g1", "g2", "g3", "g4", "g5", "g6", "g7", "g8", "g9"]

/-- Three page image paths. -/
def pages3 : List String := ["a", "b", "c"]

/-- A request for page 4 used in the planner scenario. -/
def exReq4 : PrefetchRequest := ⟨"s", 4, "g4", "en-US"⟩

/-- Fresh manager with preload_ahead = 3 (the depth of the planner claim). -/
def exF0 : PMState Nat := initState Nat 2 3

/-- Started. -/
def exF1 : PMState Nat := (startBackgroundProcessing exF0).1

/-- After preload_page("s", 4). -/
def exF2 : PMState Nat := preloadPage exF1 "s" 4 "g4" "en-US"

/-- Worker picks up page 4. -/
def exF3 : PMState Nat := beginProcessing exF2 exReq4 []

/-- The pipeline fails for page 4: status "failed" and no stored result. -/
def exFSt : PMState Nat := finishFailure exF3 exReq4

/-! ## Lemmas about the python dict embedding -/

theorem lookupSess_setSess_self {α : Type} (m : SessMap α) (k : String) (v : α) :
    lookupSess (setSess m k v) k = some v := by
  induction m with
  | nil => simp [setSess, lookupSess]
  | cons e rest ih =>
    by_cases h : e.1 = k
    · simp [setSess, h, lookupSess]
    · simp [setSess, h, lookupSess, ih]

theorem lookupSess_setSess_ne {α : Type} (m : SessMap α) (k k' : String) (v : α)
    (h : k' ≠ k) : lookupSess (setSess m k v) k' = lookupSess m k' := by
  induction m with
  | nil => simp [setSess, lookupSess, Ne.symm h]
  | cons e rest ih =>
    by_cases he : e.1 = k
    · subst he
      have hne : ¬ e.1 = k' := fun hh => h hh.symm
      simp [setSess, lookupSess, hne]
    · simp [setSess, he, lookupSess, ih]

theorem lookupPage_setPage_self {α : Type} (m : PageMap α) (k : Int) (v : α) :
    lookupPage (setPage m k v) k = some v := by
  induction m with
  | nil => simp [setPage, lookupPage]
  | cons e rest ih =>
    by_cases h : e.1 = k
    · simp [setPage, h, lookupPage]
    · simp [setPage, h, lookupPage, ih]

theorem lookupPage_setPage_ne {α : Type} (m : PageMap α) (k k' : Int) (v : α)
    (h : k' ≠ k) : lookupPage (setPage m k v) k' = lookupPage m k' := by
  induction m with
  | nil => simp [setPage, lookupPage, Ne.symm h]
  | cons e rest ih =>
    by_cases he : e.1 = k
    · subst he
      have hne : ¬ e.1 = k' := fun hh => h hh.symm
      simp [setPage, lookupPage, hne]
    · simp [setPage, he, lookupPage, ih]

theorem lookupSess_delSess_self {α : Type} (m : SessMap α) (k : String) :
    lookupSess (delSess m k) k = none := by
  induction m with
  | nil => simp [delSess, lookupSess]
  | cons e rest ih =>
    by_cases h : e.1 = k
    · simpa [delSess, h, lookupSess] using ih
    · simpa [delSess, h, lookupSess, List.filter] using ih

theorem lookupSess_delSess_ne {α : Type} (m : SessMap α) (k k' : String) (h : k' ≠ k) :
    lookupSess (delSess m k) k' = lookupSess m k' := by
  induction m with
  | nil => simp [delSess, lookupSess]
  | cons e rest ih =>
    by_cases he : e.1 = k
    · subst he
      have : ¬ e.1 = k' := fun hh => h (hh ▸ rfl)
      simp [delSess, lookupSess, this] at *
      exact ih
    · simp [delSess, he, lookupSess, List.filter] at *
      by_cases hk : e.1 = k'
      · simp [hk]
      · simp [hk, ih]

theorem lookupSess_mem {α : Type} (m : SessMap α) (k : String) (v : α)
    (h : lookupSess m k = some v) : (k, v) ∈ m := by
  induction m with
  | nil => simp [lookupSess] at h
  | cons e rest ih =>
    by_cases he : e.1 = k
    · simp [lookupSess, he] at h
      subst he h
      exact List.mem_cons_self _ _
    · simp [lookupSess, he] at h
      exact List.mem_cons_of_mem _ (ih h)

theorem mem_setSess {α : Type} (m : SessMap α) (k : String) (v : α) (e : String × α)
    (h : e ∈ setSess m k v) : e = (k, v) ∨ e ∈ m := by
  induction m with
  | nil => simpa [setSess] using h
  | cons e0 rest ih =>
    by_cases he : e0.1 = k
    · simp [setSess, he] at h
      rcases h with h | h
      · exact Or.inl h
      · exact Or.inr (List.mem_cons_of_mem _ h)
    · simp [setSess, he] at h
      rcases h with h | h
      · exact Or.inr (by simp [h])
      · rcases ih h with h | h
        · exact Or.inl h
        · exact Or.inr (List.mem_cons_of_mem _ h)

theorem mem_setPage {α : Type} (m : PageMap α) (k : Int) (v : α) (e : Int × α)
    (h : e ∈ setPage m k v) : e = (k, v) ∨ e ∈ m := by
  induction m with
  | nil => simpa [setPage] using h
  | cons e0 rest ih =>
    by_cases he : e0.1 = k
    · simp [setPage, he] at h
      rcases h with h | h
      · exact Or.inl h
      · exact Or.inr (List.mem_cons_of_mem _ h)
    · simp [setPage, he] at h
      rcases h with h | h
      · exact Or.inr (by simp [h])
      · rcases ih h with h | h
        · exact Or.inl h
        · exact Or.inr (List.mem_cons_of_mem _ h)

theorem mem_delSess {α : Type} (m : SessMap α) (k : String) (e : String × α)
    (h : e ∈ delSess m k) : e ∈ m :=
  (List.mem_filter.mp h).1


/-! ## Reading through writes -/

theorem entryOf_setEntry_self {α : Type} (m : SessMap (PageMap α)) (sid : String)
    (p : Int) (v : α) : entryOf (setEntry m sid p v) sid p = some v := by
  unfold setEntry entryOf
  cases hls : lookupSess m sid with
  | none => simp [lookupSess_setSess_self, lookupPage_setPage_self]
  | some pm => simp [lookupSess_setSess_self, lookupPage_setPage_self]

theorem entryOf_setEntry_ne {α : Type} (m : SessMap (PageMap α)) (sid sid' : String)
    (p p' : Int) (v : α) (h : sid' ≠ sid ∨ p' ≠ p) :
    entryOf (setEntry m sid p v) sid' p' = entryOf m sid' p' := by
  unfold setEntry entryOf
  by_cases hs : sid' = sid
  · subst hs
    have hp : p' ≠ p := h.resolve_left (fun hh => hh rfl)
    cases hls : lookupSess m sid' with
    | none =>
      simp [lookupSess_setSess_self, lookupPage_setPage_ne _ _ _ _ hp, lookupPage, Ne.symm hp]
    | some pm =>
      simp [lookupSess_setSess_self, lookupPage_setPage_ne _ _ _ _ hp]
  · cases hls : lookupSess m sid with
    | none => rw [lookupSess_setSess_ne _ _ _ _ hs]
    | some pm => rw [lookupSess_setSess_ne _ _ _ _ hs]

theorem entryOf_delSess_self {α : Type} (m : SessMap (PageMap α)) (sid : String) (p : Int) :
    entryOf (delSess m sid) sid p = none := by
  unfold entryOf
  rw [lookupSess_delSess_self]

theorem entryOf_delSess_ne {α : Type} (m : SessMap (PageMap α)) (sid sid' : String)
    (p : Int) (h : sid' ≠ sid) : entryOf (delSess m sid) sid' p = entryOf m sid' p := by
  unfold entryOf
  rw [lookupSess_delSess_ne _ _ _ h]

theorem getPreloadStatus_eq {α : Type} (s : PMState α) (sid : String) (p : Int) :
    getPreloadStatus s sid p = (entryOf s.preloadStatus sid p).getD PStatus.not_started := by
  unfold getPreloadStatus entryOf
  cases lookupSess s.preloadStatus sid with
  | none => rfl
  | some pm => cases hlp : lookupPage pm p <;> simp [hlp]

theorem isPagePreloaded_eq {α : Type} (s : PMState α) (sid : String) (p : Int) :
    isPagePreloaded s sid p = (entryOf s.preloadResults sid p).isSome := by
  unfold isPagePreloaded entryOf
  cases lookupSess s.preloadResults sid with
  | none => rfl
  | some pm => rfl

theorem getPreloadedPage_eq {α : Type} (s : PMState α) (sid : String) (p : Int) :
    getPreloadedPage s sid p = entryOf s.preloadResults sid p := by
  unfold getPreloadedPage
  rw [isPagePreloaded_eq]
  unfold entryOf
  cases hls : lookupSess s.preloadResults sid with
  | none => simp
  | some pm => cases hlp : lookupPage pm p <;> simp [hlp]


/-! ## How each operation moves the state components -/

theorem preloadPage_preloadStatus {α : Type} (s : PMState α) (sid : String) (p : Int)
    (ref lang : String) : (preloadPage s sid p ref lang).preloadStatus = s.preloadStatus := by
  unfold preloadPage
  split <;> rfl

theorem preloadPage_preloadResults {α : Type} (s : PMState α) (sid : String) (p : Int)
    (ref lang : String) : (preloadPage s sid p ref lang).preloadResults = s.preloadResults := by
  unfold preloadPage
  split <;> rfl

theorem preloadPage_queue {α : Type} (s : PMState α) (sid : String) (p : Int)
    (ref lang : String) :
    (preloadPage s sid p ref lang).queue =
      if isPagePreloaded s sid p then s.queue
      else s.queue ++ [⟨sid, p, ref, lang⟩] := by
  unfold preloadPage
  split <;> simp_all

theorem foldPreload_preloadStatus {α : Type} (sid lang : String)
    (l : List (Int × String)) : ∀ s : PMState α,
    (l.foldl (fun st pr => preloadPage st sid pr.1 pr.2 lang) s).preloadStatus =
      s.preloadStatus := by
  induction l with
  | nil => intro s; rfl
  | cons pr l ih =>
    intro s
    rw [List.foldl_cons, ih, preloadPage_preloadStatus]

theorem foldPreload_preloadResults {α : Type} (sid lang : String)
    (l : List (Int × String)) : ∀ s : PMState α,
    (l.foldl (fun st pr => preloadPage st sid pr.1 pr.2 lang) s).preloadResults =
      s.preloadResults := by
  induction l with
  | nil => intro s; rfl
  | cons pr l ih =>
    intro s
    rw [List.foldl_cons, ih, preloadPage_preloadResults]

theorem isPagePreloaded_congr {α : Type} (s s' : PMState α)
    (h : s'.preloadResults = s.preloadResults) (sid : String) (p : Int) :
    isPagePreloaded s' sid p = isPagePreloaded s sid p := by
  rw [isPagePreloaded_eq, isPagePreloaded_eq, h]

theorem foldPreload_queue {α : Type} (sid lang : String) (l : List (Int × String)) :
    ∀ s : PMState α,
    (l.foldl (fun st pr => preloadPage st sid pr.1 pr.2 lang) s).queue =
      s.queue ++ (l.filter (fun pr => !(isPagePreloaded s sid pr.1))).map
        (fun pr => ⟨sid, pr.1, pr.2, lang⟩) := by
  induction l with
  | nil => intro s; simp
  | cons pr l ih =>
    intro s
    rw [List.foldl_cons]
    by_cases h : isPagePreloaded s sid pr.1
    · have hnoop : preloadPage s sid pr.1 pr.2 lang = s := by
        unfold preloadPage
        simp [h]
      rw [hnoop, ih, List.filter_cons]
      simp [h]
    · have hpre : (preloadPage s sid pr.1 pr.2 lang).preloadResults = s.preloadResults :=
        preloadPage_preloadResults _ _ _ _ _
      rw [ih, List.filter_cons]
      have hfc : l.filter (fun q => !(isPagePreloaded (preloadPage s sid pr.1 pr.2 lang) sid q.1)) =
          l.filter (fun q => !(isPagePreloaded s sid q.1)) := by
        apply List.filter_congr
        intro q hq
        rw [isPagePreloaded_congr _ _ hpre]
      rw [hfc, preloadPage_queue]
      simp [h]

theorem preloadUpcomingPages_ok_components {α : Type} (s s' : PMState α)
    (sid lang : String) (cur : Int) (pages : List String)
    (h : preloadUpcomingPages s sid cur pages lang = Except.ok s') :
    s'.preloadStatus = s.preloadStatus ∧ s'.preloadResults = s.preloadResults := by
  unfold preloadUpcomingPages at h
  cases hc : computePagesToPreload cur s.preloadAhead pages with
  | error e => rw [hc] at h; cases h
  | ok lst =>
    rw [hc] at h
    cases h
    exact ⟨foldPreload_preloadStatus _ _ _ _, foldPreload_preloadResults _ _ _ _⟩

theorem start_components {α : Type} (s : PMState α) :
    (startBackgroundProcessing s).1.preloadStatus = s.preloadStatus ∧
    (startBackgroundProcessing s).1.preloadResults = s.preloadResults := by
  unfold startBackgroundProcessing
  split <;> exact ⟨rfl, rfl⟩

theorem stop_components {α : Type} (s : PMState α) :
    (stopBackgroundProcessing s).preloadStatus = s.preloadStatus ∧
    (stopBackgroundProcessing s).preloadResults = s.preloadResults := by
  unfold stopBackgroundProcessing
  split <;> exact ⟨rfl, rfl⟩


/-! ## Reachability invariants -/

theorem noStored_setEntry (m : SessMap (PageMap PStatus)) (sid : String) (p : Int)
    (st : PStatus) (hst : st ≠ PStatus.not_started)
    (hm : ∀ e ∈ m, ∀ q ∈ e.2, q.2 ≠ PStatus.not_started) :
    ∀ e ∈ setEntry m sid p st, ∀ q ∈ e.2, q.2 ≠ PStatus.not_started := by
  intro e he q hq
  unfold setEntry at he
  cases hls : lookupSess m sid with
  | none =>
    rw [hls] at he
    rcases mem_setSess _ _ _ _ he with h | h
    · subst h
      rcases mem_setPage _ _ _ _ hq with h | h
      · subst h; exact hst
      · cases h
    · exact hm e h q hq
  | some pm =>
    rw [hls] at he
    rcases mem_setSess _ _ _ _ he with h | h
    · subst h
      rcases mem_setPage _ _ _ _ hq with h | h
      · subst h; exact hst
      · exact hm _ (lookupSess_mem _ _ _ hls) q h
    · exact hm e h q hq

theorem noStored_step {α : Type} (s s' : PMState α) (hstep : Step α s s')
    (hinv : NoStoredNotStarted s) : NoStoredNotStarted s' := by
  unfold NoStoredNotStarted at *
  cases hstep with
  | preload sid0 p0 ref lang =>
    rw [preloadPage_preloadStatus]
    exact hinv
  | preloadWindow x sid0 cur pages lang =>
    rename_i hok
    rw [(preloadUpcomingPages_ok_components s s' sid0 lang cur pages hok).1]
    exact hinv
  | workerBegin r rest hrun hin hq =>
    exact noStored_setEntry _ _ _ _ (by simp) hinv
  | workerSuccess r res hin =>
    unfold finishSuccess
    cases hls : lookupSess s.preloadStatus r.sid <;>
      exact noStored_setEntry _ _ _ _ (by simp) hinv
  | workerFailure r hin =>
    exact noStored_setEntry _ _ _ _ (by simp) hinv
  | clear sid0 =>
    intro e he
    exact hinv e (mem_delSess _ _ _ he)
  | start =>
    rw [(start_components s).1]
    exact hinv
  | stop =>
    rw [(stop_components s).1]
    exact hinv

theorem completed_entry (m : SessMap (PageMap PStatus)) (sid : String) (p : Int)
    (hc : (entryOf m sid p).getD PStatus.not_started = PStatus.completed) :
    entryOf m sid p = some PStatus.completed := by
  cases h : entryOf m sid p with
  | none => rw [h] at hc; cases hc
  | some st => rw [h] at hc; simp at hc; rw [hc]

theorem completedHasResult_step {α : Type} (s s' : PMState α) (hstep : Step α s s')
    (hinv : CompletedHasResult s) : CompletedHasResult s' := by
  unfold CompletedHasResult at *
  intro sid p hc
  cases hstep with
  | preload sid0 p0 ref lang =>
    rw [getPreloadStatus_eq, preloadPage_preloadStatus, ← getPreloadStatus_eq] at hc
    rw [isPagePreloaded_eq, preloadPage_preloadResults, ← isPagePreloaded_eq]
    exact hinv sid p hc
  | preloadWindow x sid0 cur pages lang =>
    rename_i hok
    obtain ⟨h1, h2⟩ := preloadUpcomingPages_ok_components s s' sid0 lang cur pages hok
    rw [getPreloadStatus_eq, h1, ← getPreloadStatus_eq] at hc
    rw [isPagePreloaded_eq, h2, ← isPagePreloaded_eq]
    exact hinv sid p hc
  | workerBegin r rest hrun hin hq =>
    rw [getPreloadStatus_eq] at hc
    rw [isPagePreloaded_eq]
    by_cases hk : sid = r.sid ∧ p = r.page
    · obtain ⟨h1, h2⟩ := hk
      rw [h1, h2] at hc
      have h0 : entryOf (beginProcessing s r rest).preloadStatus r.sid r.page =
          some PStatus.processing := entryOf_setEntry_self _ _ _ _
      rw [h0] at hc
      cases hc
    · have hne : sid ≠ r.sid ∨ p ≠ r.page := not_and_or.mp hk
      have : entryOf (beginProcessing s r rest).preloadStatus sid p =
          entryOf s.preloadStatus sid p := entryOf_setEntry_ne _ _ _ _ _ _ hne
      rw [this, ← getPreloadStatus_eq] at hc
      have hres : (beginProcessing s r rest).preloadResults = s.preloadResults := rfl
      rw [hres, ← isPagePreloaded_eq]
      exact hinv sid p hc
  | workerSuccess r res hin =>
    rw [getPreloadStatus_eq] at hc
    rw [isPagePreloaded_eq]
    by_cases hk : sid = r.sid ∧ p = r.page
    · obtain ⟨h1, h2⟩ := hk
      rw [h1, h2]
      have hres : (finishSuccess s r res).preloadResults =
          setEntry s.preloadResults r.sid r.page res := by
        unfold finishSuccess
        cases lookupSess s.preloadStatus r.sid <;> rfl
      rw [hres, entryOf_setEntry_self]
      rfl
    · have hne : sid ≠ r.sid ∨ p ≠ r.page := not_and_or.mp hk
      have hres : (finishSuccess s r res).preloadResults =
          setEntry s.preloadResults r.sid r.page res := by
        unfold finishSuccess
        cases lookupSess s.preloadStatus r.sid <;> rfl
      have hstat : ∃ st, (finishSuccess s r res).preloadStatus =
          setEntry s.preloadStatus r.sid r.page st := by
        unfold finishSuccess
        cases lookupSess s.preloadStatus r.sid
        · exact ⟨PStatus.failed, rfl⟩
        · exact ⟨PStatus.completed, rfl⟩
      obtain ⟨st, hstat⟩ := hstat
      rw [hstat, entryOf_setEntry_ne _ _ _ _ _ _ hne, ← getPreloadStatus_eq] at hc
      rw [hres, entryOf_setEntry_ne _ _ _ _ _ _ hne, ← isPagePreloaded_eq]
      exact hinv sid p hc
  | workerFailure r hin =>
    rw [getPreloadStatus_eq] at hc
    rw [isPagePreloaded_eq]
    by_cases hk : sid = r.sid ∧ p = r.page
    · obtain ⟨h1, h2⟩ := hk
      rw [h1, h2] at hc
      have h0 : entryOf (finishFailure s r).preloadStatus r.sid r.page =
          some PStatus.failed := entryOf_setEntry_self _ _ _ _
      rw [h0] at hc
      cases hc
    · have hne : sid ≠ r.sid ∨ p ≠ r.page := not_and_or.mp hk
      have : entryOf (finishFailure s r).preloadStatus sid p =
          entryOf s.preloadStatus sid p := entryOf_setEntry_ne _ _ _ _ _ _ hne
      rw [this, ← getPreloadStatus_eq] at hc
      have hres : (finishFailure s r).preloadResults = s.preloadResults := rfl
      rw [hres, ← isPagePreloaded_eq]
      exact hinv sid p hc
  | clear sid0 =>
    rw [getPreloadStatus_eq] at hc
    rw [isPagePreloaded_eq]
    by_cases hk : sid = sid0
    · rw [hk] at hc
      have h0 : entryOf (clearSessionData s sid0).preloadStatus sid0 p = none :=
        entryOf_delSess_self _ _ _
      rw [h0] at hc
      cases hc
    · have h1 : entryOf (clearSessionData s sid0).preloadStatus sid p =
          entryOf s.preloadStatus sid p := entryOf_delSess_ne _ _ _ _ hk
      have h2 : entryOf (clearSessionData s sid0).preloadResults sid p =
          entryOf s.preloadResults sid p := entryOf_delSess_ne _ _ _ _ hk
      rw [h1, ← getPreloadStatus_eq] at hc
      rw [h2, ← isPagePreloaded_eq]
      exact hinv sid p hc
  | start =>
    obtain ⟨h1, h2⟩ := start_components s
    rw [getPreloadStatus_eq, h1, ← getPreloadStatus_eq] at hc
    rw [isPagePreloaded_eq, h2, ← isPagePreloaded_eq]
    exact hinv sid p hc
  | stop =>
    obtain ⟨h1, h2⟩ := stop_components s
    rw [getPreloadStatus_eq, h1, ← getPreloadStatus_eq] at hc
    rw [isPagePreloaded_eq, h2, ← isPagePreloaded_eq]
    exact hinv sid p hc

theorem reachable_invariants {α : Type} (s : PMState α) (h : Reachable α s) :
    NoStoredNotStarted s ∧ CompletedHasResult s := by
  obtain ⟨mw, pa, hr⟩ := h
  induction hr with
  | refl =>
    constructor
    · intro e he; cases he
    · intro sid p hc
      rw [getPreloadStatus_eq] at hc
      cases hc
  | tail hr hstep ih =>
    obtain ⟨h1, h2⟩ := ih
    exact ⟨noStored_step _ _ hstep h1, completedHasResult_step _ _ hstep h2⟩


/-! ## Concrete executions -/

theorem step_exS0_exS1 : Step Nat exS0 exS1 := Step.start exS0

theorem step_exS1_exS2 : Step Nat exS1 exS2 := Step.preload exS1 "s" 0 "p0.png" "en-US"

theorem step_exS2_exS3 : Step Nat exS2 exS3 := Step.workerBegin exS2 exReq0 [] rfl rfl rfl

theorem step_exS2_exS2b : Step Nat exS2 exS2b := Step.preload exS2 "s" 0 "p0.png" "en-US"

theorem step_exS2b_exS3b : Step Nat exS2b exS3b :=
  Step.workerBegin exS2b exReq0 [exReq0] rfl rfl rfl

theorem step_exS3b_exS4 : Step Nat exS3b exS4 := Step.workerSuccess exS3b exReq0 42 rfl

theorem step_exS4_exS5 : Step Nat exS4 exS5 := Step.workerBegin exS4 exReq0 [] rfl rfl rfl

theorem step_exS3_exC4 : Step Nat exS3 exC4 := Step.clear exS3 "s"

theorem step_exC4_exC5 : Step Nat exC4 exC5 := Step.workerFailure exC4 exReq0 rfl

theorem reach_exS2 : Reachable Nat exS2 :=
  ⟨2, 2, Relation.ReflTransGen.tail (Relation.ReflTransGen.tail
    (Relation.ReflTransGen.refl) step_exS0_exS1) step_exS1_exS2⟩

theorem reach_exS3 : Reachable Nat exS3 := by
  obtain ⟨mw, pa, h⟩ := reach_exS2
  exact ⟨mw, pa, Relation.ReflTransGen.tail h step_exS2_exS3⟩

theorem reach_exS4 : Reachable Nat exS4 := by
  obtain ⟨mw, pa, h⟩ := reach_exS2
  exact ⟨mw, pa, Relation.ReflTransGen.tail (Relation.ReflTransGen.tail
    (Relation.ReflTransGen.tail h step_exS2_exS2b) step_exS2b_exS3b) step_exS3b_exS4⟩

theorem reach_exS5 : Reachable Nat exS5 := by
  obtain ⟨mw, pa, h⟩ := reach_exS4
  exact ⟨mw, pa, Relation.ReflTransGen.tail h step_exS4_exS5⟩

theorem reach_exC4 : Reachable Nat exC4 := by
  obtain ⟨mw, pa, h⟩ := reach_exS3
  exact ⟨mw, pa, Relation.ReflTransGen.tail h step_exS3_exC4⟩

theorem step_exF0_exF1 : Step Nat exF0 exF1 := Step.start exF0

theorem step_exF1_exF2 : Step Nat exF1 exF2 := Step.preload exF1 "s" 4 "g4" "en-US"

theorem step_exF2_exF3 : Step Nat exF2 exF3 := Step.workerBegin exF2 exReq4 [] rfl rfl rfl

theorem step_exF3_exFSt : Step Nat exF3 exFSt := Step.workerFailure exF3 exReq4 rfl

theorem reach_exFSt : Reachable Nat exFSt :=
  ⟨2, 3, Relation.ReflTransGen.tail (Relation.ReflTransGen.tail
    (Relation.ReflTransGen.tail (Relation.ReflTransGen.tail
      (Relation.ReflTransGen.refl) step_exF0_exF1) step_exF1_exF2)
      step_exF2_exF3) step_exF3_exFSt⟩


/-! ## The planning loop -/

theorem exceptOk_bind {ε α β : Type} (a : α) (f : α → Except ε β) :
    (Except.ok a >>= f) = f a := rfl

theorem planStep_lt (current : Int) (pages : List String) (acc : List (Int × String))
    (j : Nat) (h0 : 0 ≤ current + ((j : Int) + 1))
    (hn : current + ((j : Int) + 1) < (pages.length : Int)) :
    planStep current pages acc j =
      Except.ok (acc ++ [(current + ((j : Int) + 1),
        (pages.get? (current + ((j : Int) + 1)).toNat).getD "")]) := by
  unfold planStep
  have hlt : (current + ((j : Int) + 1)).toNat < pages.length := by omega
  have hsome : pages.get? (current + ((j : Int) + 1)).toNat =
      some (pages.get ⟨(current + ((j : Int) + 1)).toNat, hlt⟩) := List.get?_eq_get hlt
  have hpy : pyGet pages (current + ((j : Int) + 1)) =
      some (pages.get ⟨(current + ((j : Int) + 1)).toNat, hlt⟩) := by
    unfold pyGet
    rw [if_pos h0]
    exact hsome
  rw [if_pos hn, hpy, hsome]
  rfl

theorem planStep_ge (current : Int) (pages : List String) (acc : List (Int × String))
    (j : Nat) (hn : ¬ current + ((j : Int) + 1) < (pages.length : Int)) :
    planStep current pages acc j = Except.ok acc := by
  unfold planStep
  rw [if_neg hn]

theorem computePagesAux (pages : List String) (current : Int) (h0 : 0 ≤ current) :
    ∀ (js : List Nat) (acc : List (Int × String)),
    js.foldlM (planStep current pages) acc =
    Except.ok (acc ++ ((js.map (fun (j : Nat) => current + ((j : Int) + 1))).filter
        (fun n => n < (pages.length : Int))).map
        (fun n => (n, (pages.get? n.toNat).getD ""))) := by
  intro js
  induction js with
  | nil => intro acc; simp; rfl
  | cons j js ih =>
    intro acc
    rw [List.foldlM_cons]
    by_cases hn : current + ((j : Int) + 1) < (pages.length : Int)
    · have hnn : 0 ≤ current + ((j : Int) + 1) := by positivity
      rw [planStep_lt current pages acc j hnn hn, exceptOk_bind, ih]
      simp [hn, List.append_assoc]
    · rw [planStep_ge current pages acc j hn, exceptOk_bind, ih]
      simp [hn]

theorem computePagesToPreload_ok (current depth : Int) (pages : List String)
    (h0 : 0 ≤ current) :
    computePagesToPreload current depth pages =
      Except.ok ((windowCandidates current depth pages.length).map
        (fun n => (n, (pages.get? n.toNat).getD ""))) := by
  unfold computePagesToPreload windowCandidates
  rw [computePagesAux pages current h0 (List.range depth.toNat) []]
  simp

theorem computeNoCandidates (pages : List String) (current : Int) :
    ∀ (js : List Nat) (acc : List (Int × String)),
    (∀ j ∈ js, ¬(current + ((j : Int) + 1) < (pages.length : Int))) →
    js.foldlM (planStep current pages) acc = Except.ok acc := by
  intro js
  induction js with
  | nil => intro acc h; rfl
  | cons j js ih =>
    intro acc h
    rw [List.foldlM_cons, planStep_ge current pages acc j (h j (List.mem_cons_self _ _)),
      exceptOk_bind]
    exact ih acc (fun j hj => h j (List.mem_cons_of_mem _ hj))


/-! ## Claims: stats, reads, failure isolation, worker count -/

theorem countStatus_partition (pm : PageMap PStatus) :
    countStatus pm PStatus.completed + countStatus pm PStatus.processing +
      countStatus pm PStatus.failed + countStatus pm PStatus.not_started = pm.length := by
  induction pm with
  | nil => rfl
  | cons q rest ih =>
    unfold countStatus at *
    rw [List.countP_cons, List.countP_cons, List.countP_cons, List.countP_cons]
    cases hq : q.2 <;> simp [hq] <;> omega

/-- Claim C7: in every state, IsReady(S, i) is true exactly when Get(S, i)
returns a found (non-absent) result: is_page_preloaded and
get_preloaded_page read the same result-store entry. -/
theorem ready_iff_get_found {α : Type} (s : PMState α) (sid : String) (p : Int) :
    isPagePreloaded s sid p = true ↔ (getPreloadedPage s sid p).isSome = true := by
  rw [isPagePreloaded_eq, getPreloadedPage_eq]

/-- Claim C9: clear_session_data removes every entry of the session from both
the result store and the status tracker, and get_preload_stats then
reports zero for the total and every per-status count. -/
theorem clear_session_zeroes_stats {α : Type} (s : PMState α) (sid : String) :
    lookupSess (clearSessionData s sid).preloadResults sid = none ∧
    lookupSess (clearSessionData s sid).preloadStatus sid = none ∧
    (∀ p : Int, getPreloadStatus (clearSessionData s sid) sid p = PStatus.not_started) ∧
    (∀ p : Int, isPagePreloaded (clearSessionData s sid) sid p = false) ∧
    getPreloadStats (clearSessionData s sid) sid = ⟨0, 0, 0, 0, 0⟩ := by
  have h1 : lookupSess (clearSessionData s sid).preloadResults sid = none :=
    lookupSess_delSess_self _ _
  have h2 : lookupSess (clearSessionData s sid).preloadStatus sid = none :=
    lookupSess_delSess_self _ _
  refine ⟨h1, h2, ?_, ?_, ?_⟩
  · intro p
    rw [getPreloadStatus_eq]
    have h0 : entryOf (clearSessionData s sid).preloadStatus sid p = none :=
      entryOf_delSess_self _ _ _
    rw [h0]
    rfl
  · intro p
    rw [isPagePreloaded_eq]
    have h0 : entryOf (clearSessionData s sid).preloadResults sid p = none :=
      entryOf_delSess_self _ _ _
    rw [h0]
    rfl
  · unfold getPreloadStats
    rw [h2]

/-- Claim C8: when the analysis pipeline raises for a dequeued request, the
worker cycle records status "failed" for that (session, index), leaves
the result store untouched, returns normally (the except handler of
lines 93-97 swallows the exception, so nothing reaches the consumer
loop), leaves no item in flight with the rest of the queue intact, and
changes no other item's status. -/
theorem pipeline_failure_isolated {α : Type} (s : PMState α) (r : PrefetchRequest)
    (rest : List PrefetchRequest) (hin : s.inFlight = none) (hq : s.queue = r :: rest) :
    getPreloadStatus (finishFailure (beginProcessing s r rest) r) r.sid r.page =
      PStatus.failed ∧
    (finishFailure (beginProcessing s r rest) r).preloadResults = s.preloadResults ∧
    (finishFailure (beginProcessing s r rest) r).inFlight = none ∧
    (finishFailure (beginProcessing s r rest) r).queue = rest ∧
    (∀ sid p, sid ≠ r.sid ∨ p ≠ r.page →
      getPreloadStatus (finishFailure (beginProcessing s r rest) r) sid p =
        getPreloadStatus s sid p) := by
  refine ⟨?_, rfl, rfl, rfl, ?_⟩
  · rw [getPreloadStatus_eq]
    have h0 : entryOf (finishFailure (beginProcessing s r rest) r).preloadStatus
        r.sid r.page = some PStatus.failed := entryOf_setEntry_self _ _ _ _
    rw [h0]
    rfl
  · intro sid p hne
    rw [getPreloadStatus_eq, getPreloadStatus_eq]
    have h1 : entryOf (finishFailure (beginProcessing s r rest) r).preloadStatus sid p =
        entryOf (beginProcessing s r rest).preloadStatus sid p :=
      entryOf_setEntry_ne _ _ _ _ _ _ hne
    have h2 : entryOf (beginProcessing s r rest).preloadStatus sid p =
        entryOf s.preloadStatus sid p := entryOf_setEntry_ne _ _ _ _ _ _ hne
    rw [h1, h2]

theorem pipeline_failure_isolated_witness :
    getPreloadStatus (finishFailure (beginProcessing exS2 exReq0 []) exReq0)
      exReq0.sid exReq0.page = PStatus.failed ∧
    (finishFailure (beginProcessing exS2 exReq0 []) exReq0).preloadResults =
      exS2.preloadResults ∧
    (finishFailure (beginProcessing exS2 exReq0 []) exReq0).inFlight = none ∧
    (finishFailure (beginProcessing exS2 exReq0 []) exReq0).queue = [] ∧
    (∀ sid p, sid ≠ exReq0.sid ∨ p ≠ exReq0.page →
      getPreloadStatus (finishFailure (beginProcessing exS2 exReq0 []) exReq0) sid p =
        getPreloadStatus exS2 sid p) :=
  pipeline_failure_isolated exS2 exReq0 [] rfl rfl

/-- Claim C5 counterexample: with max_workers = 2, start_background_processing
creates one background consumer task (a single asyncio.create_task call),
not max_workers of them. -/
theorem start_ignores_max_workers :
    (initState Nat 2 2).maxWorkers = 2 ∧
    (startBackgroundProcessing (initState Nat 2 2)).2 = 1 ∧
    ((startBackgroundProcessing (initState Nat 2 2)).2 : Int) ≠
      (initState Nat 2 2).maxWorkers :=
  ⟨rfl, rfl, by decide⟩

/-- Claim C5 amended: start_background_processing on a non-running manager
creates exactly one consumer loop (and marks the manager running),
whatever max_workers is; the ThreadPoolExecutor sized max_workers is
never used. -/
theorem start_creates_single_consumer_loop {α : Type} (s : PMState α)
    (h : s.running = false) :
    (startBackgroundProcessing s).2 = 1 ∧
    (startBackgroundProcessing s).1.running = true := by
  simp [startBackgroundProcessing, h]

theorem start_creates_single_consumer_loop_witness :
    (startBackgroundProcessing exS0).2 = 1 ∧
    (startBackgroundProcessing exS0).1.running = true :=
  start_creates_single_consumer_loop exS0 rfl


/-! ## Claims: idempotence, lifecycle, readiness, stats invariant -/

/-- Claim C1 counterexample: in reachable state exS3 the status of ("s", 0) is
"processing" and no result is stored, so a second preload_page call for
the same page is not a no-op: it enqueues a new (duplicate) request. -/
theorem preload_reenqueues_while_processing :
    Reachable Nat exS3 ∧
    getPreloadStatus exS3 "s" 0 = PStatus.processing ∧
    (preloadPage exS3 "s" 0 "p0.png" "en-US").queue.length = exS3.queue.length + 1 :=
  ⟨reach_exS3, by decide, by decide⟩

/-- Claim C1 amended: preload_page is a no-op exactly when a result is already
stored; in particular, in any reachable state, a page whose status is
"completed" has a stored result, so preloading it again changes nothing. -/
theorem preload_noop_when_completed {α : Type} (s : PMState α) (sid : String) (p : Int)
    (ref lang : String) (hr : Reachable α s)
    (hc : getPreloadStatus s sid p = PStatus.completed) :
    preloadPage s sid p ref lang = s := by
  have hpre : isPagePreloaded s sid p = true := (reachable_invariants s hr).2 sid p hc
  simp [preloadPage, hpre]

theorem preload_noop_when_completed_witness :
    preloadPage exS4 "s" 0 "p0.png" "en-US" = exS4 :=
  preload_noop_when_completed exS4 "s" 0 "p0.png" "en-US" reach_exS4 (by decide)

/-- Claim C2 counterexample: a duplicate request enqueued before completion
moves a "completed" entry back to "processing": exS4 is reachable with
status completed for ("s", 0), and the worker dequeuing the duplicate is
a legal step to exS5 where the status is "processing" again. -/
theorem completed_steps_back_to_processing :
    Reachable Nat exS4 ∧
    getPreloadStatus exS4 "s" 0 = PStatus.completed ∧
    Step Nat exS4 exS5 ∧
    getPreloadStatus exS5 "s" 0 = PStatus.processing :=
  ⟨reach_exS4, by decide, step_exS4_exS5, by decide⟩

/-- Claim C2 amended: a Completed or Failed entry with no pending duplicate
request (none queued, none in flight) is stable: any single step either
leaves its status unchanged or removes it wholesale (clear_session_data,
after which the status reads "not_started").  Moving back to
"processing" is possible only by a worker dequeuing a pending duplicate
request for that same (session, index). -/
theorem status_stable_without_pending_request {α : Type} (s s' : PMState α)
    (sid : String) (p : Int) (hstep : Step α s s')
    (hdone : getPreloadStatus s sid p = PStatus.completed ∨
      getPreloadStatus s sid p = PStatus.failed)
    (hque : ∀ r ∈ s.queue, r.sid ≠ sid ∨ r.page ≠ p)
    (hfl : ∀ r, s.inFlight = some r → r.sid ≠ sid ∨ r.page ≠ p) :
    getPreloadStatus s' sid p = getPreloadStatus s sid p ∨
    getPreloadStatus s' sid p = PStatus.not_started := by
  cases hstep with
  | preload sid0 p0 ref lang =>
    left
    rw [getPreloadStatus_eq, preloadPage_preloadStatus, ← getPreloadStatus_eq]
  | preloadWindow x sid0 cur pages lang =>
    rename_i hok
    left
    rw [getPreloadStatus_eq,
      (preloadUpcomingPages_ok_components s s' sid0 lang cur pages hok).1,
      ← getPreloadStatus_eq]
  | workerBegin r rest hrun hin hq2 =>
    left
    have hmem : r ∈ s.queue := by rw [hq2]; exact List.mem_cons_self _ _
    have hne : sid ≠ r.sid ∨ p ≠ r.page := (hque r hmem).imp Ne.symm Ne.symm
    rw [getPreloadStatus_eq]
    have h0 : entryOf (beginProcessing s r rest).preloadStatus sid p =
        entryOf s.preloadStatus sid p := entryOf_setEntry_ne _ _ _ _ _ _ hne
    rw [h0, ← getPreloadStatus_eq]
  | workerSuccess r res hin2 =>
    left
    have hne : sid ≠ r.sid ∨ p ≠ r.page := (hfl r hin2).imp Ne.symm Ne.symm
    have hstat : ∃ st, (finishSuccess s r res).preloadStatus =
        setEntry s.preloadStatus r.sid r.page st := by
      unfold finishSuccess
      cases lookupSess s.preloadStatus r.sid
      · exact ⟨PStatus.failed, rfl⟩
      · exact ⟨PStatus.completed, rfl⟩
    obtain ⟨st, hstat⟩ := hstat
    rw [getPreloadStatus_eq, hstat, entryOf_setEntry_ne _ _ _ _ _ _ hne,
      ← getPreloadStatus_eq]
  | workerFailure r hin2 =>
    left
    have hne : sid ≠ r.sid ∨ p ≠ r.page := (hfl r hin2).imp Ne.symm Ne.symm
    rw [getPreloadStatus_eq]
    have h0 : entryOf (finishFailure s r).preloadStatus sid p =
        entryOf s.preloadStatus sid p := entryOf_setEntry_ne _ _ _ _ _ _ hne
    rw [h0, ← getPreloadStatus_eq]
  | clear sid0 =>
    by_cases hk : sid = sid0
    · right
      rw [hk, getPreloadStatus_eq]
      have h0 : entryOf (clearSessionData s sid0).preloadStatus sid0 p = none :=
        entryOf_delSess_self _ _ _
      rw [h0]
      rfl
    · left
      rw [getPreloadStatus_eq]
      have h0 : entryOf (clearSessionData s sid0).preloadStatus sid p =
          entryOf s.preloadStatus sid p := entryOf_delSess_ne _ _ _ _ hk
      rw [h0, ← getPreloadStatus_eq]
  | start =>
    left
    rw [getPreloadStatus_eq, (start_components s).1, ← getPreloadStatus_eq]
  | stop =>
    left
    rw [getPreloadStatus_eq, (stop_components s).1, ← getPreloadStatus_eq]

theorem status_stable_without_pending_request_witness :
    getPreloadStatus (clearSessionData exFSt "s") "s" 4 = getPreloadStatus exFSt "s" 4 ∨
    getPreloadStatus (clearSessionData exFSt "s") "s" 4 = PStatus.not_started :=
  status_stable_without_pending_request exFSt (clearSessionData exFSt "s") "s" 4
    (Step.clear exFSt "s") (Or.inr (by decide)) (by decide)
    (fun r h => Option.noConfusion ((Eq.symm h).trans rfl))

/-- Claim C6 counterexample: in reachable state exS5, is_page_preloaded (the
IsReady read) is true while the tracked status is "processing", not
"completed": the duplicate request was re-begun after the result had
been stored. -/
theorem ready_while_status_processing :
    Reachable Nat exS5 ∧
    isPagePreloaded exS5 "s" 0 = true ∧
    getPreloadStatus exS5 "s" 0 ≠ PStatus.completed ∧
    getPreloadStatus exS5 "s" 0 = PStatus.processing :=
  ⟨reach_exS5, by decide, by decide, by decide⟩

/-- Claim C6 amended: is_page_preloaded is true iff a result is stored; the
"only if" direction of the claim survives: in every reachable state a
"completed" status implies is_page_preloaded is true.  The converse
fails (see the counterexample). -/
theorem completed_implies_ready {α : Type} (s : PMState α) (sid : String) (p : Int)
    (hr : Reachable α s) (hc : getPreloadStatus s sid p = PStatus.completed) :
    isPagePreloaded s sid p = true :=
  (reachable_invariants s hr).2 sid p hc

theorem completed_implies_ready_witness : isPagePreloaded exS4 "s" 0 = true :=
  completed_implies_ready exS4 "s" 0 reach_exS4 (by decide)

/-- Claim C10 counterexample: a status-tracker entry can be created directly at
"failed", not only at "processing": after clear_session_data runs while
a request is in flight (exC4, where the status reads "not_started"), the
failing finish step re-creates the entry at "failed" in one step. -/
theorem status_entry_created_failed_after_clear :
    Reachable Nat exC4 ∧
    getPreloadStatus exC4 "s" 0 = PStatus.not_started ∧
    Step Nat exC4 exC5 ∧
    getPreloadStatus exC5 "s" 0 = PStatus.failed :=
  ⟨reach_exC4, by decide, step_exC4_exC5, by decide⟩

/-- Claim C10 amended: in every reachable state the stats counts partition the
tracked entries (completed + processing + failed + not_started = total)
and the not_started count is zero: stored status values are only ever
"processing", "completed" or "failed" — though after a mid-flight
clear_session_data an entry can be created directly at "failed", never
only at "processing" as the claim asserts. -/
theorem stats_partition_and_no_not_started {α : Type} (s : PMState α) (sid : String)
    (hr : Reachable α s) :
    (getPreloadStats s sid).completed + (getPreloadStats s sid).processing +
      (getPreloadStats s sid).failed + (getPreloadStats s sid).notStarted =
      (getPreloadStats s sid).totalPages ∧
    (getPreloadStats s sid).notStarted = 0 := by
  have hns := (reachable_invariants s hr).1
  unfold getPreloadStats
  cases hls : lookupSess s.preloadStatus sid with
  | none => exact ⟨rfl, rfl⟩
  | some pm =>
    constructor
    · exact countStatus_partition pm
    · have hpm : ∀ q ∈ pm, q.2 ≠ PStatus.not_started :=
        fun q hq => hns _ (lookupSess_mem _ _ _ hls) q hq
      unfold countStatus
      rw [List.countP_eq_zero]
      intro q hq
      simp only [decide_eq_true_eq]
      exact hpm q hq

theorem stats_partition_witness :
    ((getPreloadStats exS4 "s").completed + (getPreloadStats exS4 "s").processing +
      (getPreloadStats exS4 "s").failed + (getPreloadStats exS4 "s").notStarted =
      (getPreloadStats exS4 "s").totalPages) ∧
    (getPreloadStats exS4 "s").notStarted = 0 :=
  stats_partition_and_no_not_started exS4 "s" reach_exS4


/-! ## Claims: window planner -/

/-- Claim C3 counterexample: in reachable state exFSt page 4 has status "failed"
(and no stored result), so with current = 2, total = 10, depth = 3 the
code enqueues pages [3, 4, 5], not the [3, 5] that the claimed
"status NotStarted" filter would produce. -/
theorem planner_enqueues_failed_candidate :
    Reachable Nat exFSt ∧
    getPreloadStatus exFSt "s" 4 = PStatus.failed ∧
    isPagePreloaded exFSt "s" 4 = false ∧
    (preloadUpcomingPages exFSt "s" 2 pages10 "en-US").map
      (fun s' => s'.queue.map PrefetchRequest.page) = Except.ok [3, 4, 5] ∧
    ([3, 4, 5] : List Int) ≠ [3, 5] :=
  ⟨reach_exFSt, by decide, by decide, by rfl, by decide⟩

/-- Claim C3 amended: for a nonnegative current index, the planning-and-enqueue
pass selects exactly the candidates current + i (i in 1..depth) that lie
below total and have no stored result (statuses "processing" and
"failed" are not filtered out, only a present result is), appending them
to the queue in ascending index order. -/
theorem planner_enqueues_unfetched_window {α : Type} (s : PMState α) (sid lang : String)
    (pages : List String) (current : Int) (h0 : 0 ≤ current) :
    ∃ s', preloadUpcomingPages s sid current pages lang = Except.ok s' ∧
      s'.queue = s.queue ++
        ((windowCandidates current s.preloadAhead pages.length).filter
          (fun n => !(isPagePreloaded s sid n))).map
          (fun n => ⟨sid, n, (pages.get? n.toNat).getD "", lang⟩) ∧
      ((windowCandidates current s.preloadAhead pages.length).filter
        (fun n => !(isPagePreloaded s sid n))).Pairwise (· < ·) := by
  have hrun : preloadUpcomingPages s sid current pages lang = Except.ok
      (((windowCandidates current s.preloadAhead pages.length).map
        (fun n => (n, (pages.get? n.toNat).getD ""))).foldl
        (fun st pr => preloadPage st sid pr.1 pr.2 lang) s) := by
    unfold preloadUpcomingPages
    rw [computePagesToPreload_ok current s.preloadAhead pages h0]
  refine ⟨_, hrun, ?_, ?_⟩
  · rw [foldPreload_queue sid lang
      ((windowCandidates current s.preloadAhead pages.length).map
        (fun n => (n, (pages.get? n.toNat).getD ""))) s]
    rw [List.filter_map, List.map_map]
    rfl
  · have hpw : (windowCandidates current s.preloadAhead pages.length).Pairwise (· < ·) := by
      unfold windowCandidates
      refine List.Pairwise.filter _ ?_
      refine List.Pairwise.map _ ?_ (List.pairwise_lt_range _)
      intro a b hab
      omega
    exact List.Pairwise.filter _ hpw

theorem planner_enqueues_unfetched_window_witness :
    ∃ s', preloadUpcomingPages exF1 "s" 2 pages10 "en-US" = Except.ok s' ∧
      s'.queue = exF1.queue ++
        ((windowCandidates 2 exF1.preloadAhead pages10.length).filter
          (fun n => !(isPagePreloaded exF1 "s" n))).map
          (fun n => ⟨"s", n, (pages10.get? n.toNat).getD "", "en-US"⟩) ∧
      ((windowCandidates 2 exF1.preloadAhead pages10.length).filter
        (fun n => !(isPagePreloaded exF1 "s" n))).Pairwise (· < ·) :=
  planner_enqueues_unfetched_window exF1 "s" "en-US" pages10 2 (by decide)

/-- Claim C4 counterexample: planner misuse is not harmless for a negative
current index.  With three pages, current = -5 and depth = 2 the
subscript pages[-4] raises IndexError; with current = -2 the plan is not
empty: the pages -1 and 0 are enqueued (python's negative indexing reads
pages[-1]). -/
theorem planner_misuse_not_harmless :
    preloadUpcomingPages (initState Nat 2 2) "s" (-5) pages3 "en-US" =
      Except.error "IndexError" ∧
    (preloadUpcomingPages (initState Nat 2 2) "s" (-2) pages3 "en-US").map
      (fun s' => s'.queue.map PrefetchRequest.page) = Except.ok [-1, 0] :=
  ⟨by rfl, by rfl⟩

/-- Claim C4 amended: the two guarded cases are harmless: a non-positive
lookahead depth, or a current index at or beyond total - 1, give an
empty plan, no enqueue and no exception.  A negative current index is
not guarded (see the counterexample). -/
theorem planner_empty_on_nonpositive_depth_or_past_end {α : Type} (s : PMState α)
    (sid lang : String) (pages : List String) (current : Int)
    (h : s.preloadAhead ≤ 0 ∨ (pages.length : Int) - 1 ≤ current) :
    preloadUpcomingPages s sid current pages lang = Except.ok s := by
  have hplan : computePagesToPreload current s.preloadAhead pages = Except.ok [] := by
    cases h with
    | inl hd =>
      unfold computePagesToPreload
      rw [Int.toNat_of_nonpos hd]
      rfl
    | inr hc =>
      unfold computePagesToPreload
      exact computeNoCandidates pages current (List.range s.preloadAhead.toNat) []
        (fun j hj => by omega)
  unfold preloadUpcomingPages
  rw [hplan]
  rfl

theorem planner_empty_witness :
    preloadUpcomingPages exS1 "s" 9 pages10 "en-US" = Except.ok exS1 :=
  planner_empty_on_nonpositive_depth_or_past_end exS1 "s" "en-US" pages10 9 (by decide)


end AudioComic
